import Mathlib

/-!
Verification of the bank-statement import/reconciliation pipeline of the
Finance-Tracker application (`src/ui/import_page.py`, with the ledger
collaborator `core/repos/transactions_repo.py`).

The Python functions `_parse_date`, `_parse_amount_to_cents`,
`_amount_from_row`, `_validate_mapping`, `_transaction_exists` and
`_scan_full_file` are embedded shallowly below (same names without the
leading underscore).  Python library behaviour they rely on is embedded as
observed on CPython/Linux:

* `str.strip` / `str.lower` are modelled on the ASCII range (the pipeline's
  tokens of interest are ASCII);
* `datetime.strptime` is modelled per CPython's `_strptime` regexes for the
  eight formats the source uses (ordered alternations with backtracking,
  full-input match, calendar validation after the regex match);
* `datetime.strftime("%Y-%m-%d")` renders the year unpadded (glibc) and
  month/day zero-padded to two digits;
* `float(...)` on a string of digits/`.`/`-`/`+` followed by
  `int(round(abs(val) * 100))` is modelled through IEEE-754 binary64
  arithmetic, carried out exactly: the decimal literal is rounded to the
  nearest double (ties to even, subnormals and overflow to infinity
  included), the product with 100 is the exact product rounded back to a
  double, and Python's `round` is ties-to-even on the exact value that
  double represents (`OverflowError` on infinity).
-/

deriving instance DecidableEq for Except

namespace FinTrack

abbrev Chars := List Char

/-- ASCII whitespace, as recognised by `str.strip` / `\s`. -/
def isWsp (c : Char) : Bool :=
  c = ' ' ∨ c = '\t' ∨ c = '\n' ∨ c = '\r' ∨ c = '\x0b' ∨ c = '\x0c'

/-- `str.strip()` on a character list. -/
def stripL (l : Chars) : Chars :=
  ((l.dropWhile isWsp).reverse.dropWhile isWsp).reverse

/-- `str.strip()` on a `String`. -/
def stripS (s : String) : String := String.mk (stripL s.toList)

/-- ASCII `str.lower` on one character. -/
def lowerC (c : Char) : Char :=
  if 'A' ≤ c ∧ c ≤ 'Z' then Char.ofNat (c.toNat + 32) else c

/-- Does `l` start with `p`? (used to model Python's `in` substring test). -/
def startsL : Chars → Chars → Bool
  | [], _ => true
  | _ :: _, [] => false
  | a :: as, b :: bs => a = b && startsL as bs

/-- Python's `needle in hay` substring test on character lists. -/
def subL (n : Chars) : Chars → Bool
  | [] => startsL n []
  | c :: t => startsL n (c :: t) || subL n t

/-- Numeric value of a decimal digit character. -/
def digVal (c : Char) : Nat := c.toNat - 48

/-- The decimal digit character for `n < 10`. -/
def dChar (n : Nat) : Char := Char.ofNat (48 + n)

/-- Value of a list of decimal digit characters (most significant first). -/
def digitsVal (l : Chars) : Nat := l.foldl (fun a c => a * 10 + digVal c) 0

/-! ## Date parsing (`_parse_date`)

`datetime.strptime` compiles each directive to an ordered regex
alternation; the whole pattern must consume the input, and the matched
numbers are then validated by the `datetime` constructor.  The alternation
lists below are CPython's (`Lib/_strptime.py`):

* `%m` : `1[0-2] | 0[1-9] | [1-9]`
* `%d` : `3[0-1] | [1-2]\d | 0[1-9] | [1-9] | " "[1-9]`
* `%Y` : exactly four digits
* `%b` / `%B` : month names, case-insensitive
* a space in the format matches one or more whitespace characters.
-/

/-- Regex-alternation candidates for `%m`, in CPython's order. -/
def altM : Chars → List (Nat × Chars)
  | [] => []
  | c :: r =>
    if c = '1' then
      match r with
      | c2 :: r2 =>
        if '0' ≤ c2 ∧ c2 ≤ '2' then [(10 + digVal c2, r2), (1, r)] else [(1, r)]
      | [] => [(1, [])]
    else if c = '0' then
      match r with
      | c2 :: r2 => if '1' ≤ c2 ∧ c2 ≤ '9' then [(digVal c2, r2)] else []
      | [] => []
    else if '2' ≤ c ∧ c ≤ '9' then [(digVal c, r)]
    else []

/-- Regex-alternation candidates for `%d`, in CPython's order. -/
def altD : Chars → List (Nat × Chars)
  | [] => []
  | c :: r =>
    if c = '3' then
      match r with
      | c2 :: r2 =>
        if '0' ≤ c2 ∧ c2 ≤ '1' then [(30 + digVal c2, r2), (3, r)] else [(3, r)]
      | [] => [(3, [])]
    else if c = '1' ∨ c = '2' then
      match r with
      | c2 :: r2 =>
        if c2.isDigit then [(digVal c * 10 + digVal c2, r2), (digVal c, r)]
        else [(digVal c, r)]
      | [] => [(digVal c, [])]
    else if c = '0' then
      match r with
      | c2 :: r2 => if '1' ≤ c2 ∧ c2 ≤ '9' then [(digVal c2, r2)] else []
      | [] => []
    else if '4' ≤ c ∧ c ≤ '9' then [(digVal c, r)]
    else if c = ' ' then
      match r with
      | c2 :: r2 => if '1' ≤ c2 ∧ c2 ≤ '9' then [(digVal c2, r2)] else []
      | [] => []
    else []

/-- `%Y`: exactly four digits. -/
def altY : Chars → Option (Nat × Chars)
  | a :: b :: c :: d :: r =>
    if a.isDigit ∧ b.isDigit ∧ c.isDigit ∧ d.isDigit then
      some (digitsVal [a, b, c, d], r)
    else none
  | _ => none

/-- Case-insensitive match of a (lowercase) pattern at the head of the input. -/
def matchCI : Chars → Chars → Option Chars
  | [], s => some s
  | _ :: _, [] => none
  | p :: ps, c :: cs => if lowerC c = p then matchCI ps cs else none

/-- Try month-name patterns in order; at most one can match. -/
def monFrom : List (Chars × Nat) → Chars → Option (Nat × Chars)
  | [], _ => none
  | (p, i) :: rest, s =>
    match matchCI p s with
    | some r => some (i, r)
    | none => monFrom rest s

def monAbbrTable : List (Chars × Nat) :=
  [("jan".toList, 1), ("feb".toList, 2), ("mar".toList, 3), ("apr".toList, 4),
   ("may".toList, 5), ("jun".toList, 6), ("jul".toList, 7), ("aug".toList, 8),
   ("sep".toList, 9), ("oct".toList, 10), ("nov".toList, 11), ("dec".toList, 12)]

def monFullTable : List (Chars × Nat) :=
  [("january".toList, 1), ("february".toList, 2), ("march".toList, 3),
   ("april".toList, 4), ("may".toList, 5), ("june".toList, 6),
   ("july".toList, 7), ("august".toList, 8), ("september".toList, 9),
   ("october".toList, 10), ("november".toList, 11), ("december".toList, 12)]

/-- `%b`. -/
def monAbbr (s : Chars) : Option (Nat × Chars) := monFrom monAbbrTable s

/-- `%B`. -/
def monFull (s : Chars) : Option (Nat × Chars) := monFrom monFullTable s

/-- A literal character in the format. -/
def litP (c : Char) : Chars → Option Chars
  | c' :: r => if c' = c then some r else none
  | [] => none

/-- A space in the format: one or more whitespace characters. -/
def wsP : Chars → Option Chars
  | c :: r => if isWsp c then some (r.dropWhile isWsp) else none
  | [] => none

/-- Backtracking over an ordered candidate list: the first candidate whose
continuation succeeds wins, as in the regex engine. -/
def firstSome : List (Nat × Chars) → (Nat → Chars → Option (Nat × Nat × Nat)) →
    Option (Nat × Nat × Nat)
  | [], _ => none
  | (v, r) :: t, k =>
    match k v r with
    | some x => some x
    | none => firstSome t k

/-- `"%Y<sep>%m<sep>%d"` (formats 1 and 2 of the source). -/
def pYMD (sep : Char) (s : Chars) : Option (Nat × Nat × Nat) :=
  (altY s).bind fun (y, r1) =>
    (litP sep r1).bind fun r2 =>
      firstSome (altM r2) fun m r3 =>
        (litP sep r3).bind fun r4 =>
          firstSome (altD r4) fun d r5 =>
            if r5 = [] then some (y, m, d) else none

/-- `"%m/%d/%Y"`. -/
def pMDY (s : Chars) : Option (Nat × Nat × Nat) :=
  firstSome (altM s) fun m r1 =>
    (litP '/' r1).bind fun r2 =>
      firstSome (altD r2) fun d r3 =>
        (litP '/' r3).bind fun r4 =>
          (altY r4).bind fun (y, r5) =>
            if r5 = [] then some (y, m, d) else none

/-- `"%d/%m/%Y"`. -/
def pDMY (s : Chars) : Option (Nat × Nat × Nat) :=
  firstSome (altD s) fun d r1 =>
    (litP '/' r1).bind fun r2 =>
      firstSome (altM r2) fun m r3 =>
        (litP '/' r3).bind fun r4 =>
          (altY r4).bind fun (y, r5) =>
            if r5 = [] then some (y, m, d) else none

/-- `"%d-%b-%Y"` / `"%d-%B-%Y"`. -/
def pDMonY (mon : Chars → Option (Nat × Chars)) (s : Chars) :
    Option (Nat × Nat × Nat) :=
  firstSome (altD s) fun d r1 =>
    (litP '-' r1).bind fun r2 =>
      (mon r2).bind fun (m, r3) =>
        (litP '-' r3).bind fun r4 =>
          (altY r4).bind fun (y, r5) =>
            if r5 = [] then some (y, m, d) else none

/-- `"%b %d %Y"` / `"%B %d %Y"`. -/
def pMonDY (mon : Chars → Option (Nat × Chars)) (s : Chars) :
    Option (Nat × Nat × Nat) :=
  (mon s).bind fun (m, r1) =>
    (wsP r1).bind fun r2 =>
      firstSome (altD r2) fun d r3 =>
        (wsP r3).bind fun r4 =>
          (altY r4).bind fun (y, r5) =>
            if r5 = [] then some (y, m, d) else none

def leapYear (y : Nat) : Bool := y % 4 = 0 ∧ (y % 100 ≠ 0 ∨ y % 400 = 0)

def daysInMonth (y m : Nat) : Nat :=
  if m = 2 then (if leapYear y then 29 else 28)
  else if m = 4 ∨ m = 6 ∨ m = 9 ∨ m = 11 then 30
  else 31

/-- The `datetime(y, m, d)` constructor's validity condition. -/
def dateOk (y m d : Nat) : Bool :=
  1 ≤ y ∧ y ≤ 9999 ∧ 1 ≤ m ∧ m ≤ 12 ∧ 1 ≤ d ∧ d ≤ daysInMonth y m

/-- Validation performed by `datetime` after the regex has matched. -/
def mkDate (t : Nat × Nat × Nat) : Option (Nat × Nat × Nat) :=
  if dateOk t.1 t.2.1 t.2.2 then some t else none

/-- The source's format tuple `fmts`, in order. -/
def fmtList : List (Chars → Option (Nat × Nat × Nat)) :=
  [pYMD '-', pYMD '/', pMDY, pDMY,
   pDMonY monAbbr, pDMonY monFull, pMonDY monAbbr, pMonDY monFull]

/-- The source's `for fmt in fmts: try ... except ValueError: pass` loop:
the first format for which both the regex match and the calendar validation
succeed wins. -/
def firstFmt : List (Chars → Option (Nat × Nat × Nat)) → Chars →
    Option (Nat × Nat × Nat)
  | [], _ => none
  | p :: ps, s =>
    match (p s).bind mkDate with
    | some t => some t
    | none => firstFmt ps s

/-- Try the source's eight formats in order. -/
def tryFormats (s : Chars) : Option (Nat × Nat × Nat) := firstFmt fmtList s

/-- Two decimal digits, zero padded (`strftime` `%m` / `%d`). -/
def pad2 (n : Nat) : Chars := [dChar (n / 10 % 10), dChar (n % 10)]

/-- Unpadded decimal rendering of a natural number (structural recursion on
a fuel argument that always suffices, so that terms reduce). -/
def natCharsAux : Nat → Nat → Chars → Chars
  | 0, _, acc => acc
  | fuel + 1, n, acc =>
    if n < 10 then dChar n :: acc
    else natCharsAux fuel (n / 10) (dChar (n % 10) :: acc)

/-- `str(n)` for a natural number. -/
def natChars (n : Nat) : Chars := natCharsAux (n + 1) n []

/-- `strftime("%Y-%m-%d")`: the year is rendered unpadded (glibc),
month and day zero-padded to two digits. -/
def formatYMD (y m d : Nat) : String :=
  String.mk (natChars y ++ '-' :: pad2 m ++ '-' :: pad2 d)

/-- `s.replace(".", "/")`. -/
def dotsToSlashes (l : Chars) : Chars :=
  l.map fun c => if c = '.' then '/' else c

/-- The guard of the source's last-resort fallback: length at least 10 and
a dash or slash at indexes 4 and 7. -/
def fallbackCond (l : Chars) : Bool :=
  10 ≤ l.length ∧ (l.getD 4 'x' = '-' ∨ l.getD 4 'x' = '/') ∧
    (l.getD 7 'x' = '-' ∨ l.getD 7 'x' = '/')

/-- `s[:10].replace("/", "-")`. -/
def fallbackResult (l : Chars) : String :=
  String.mk ((l.take 10).map fun c => if c = '/' then '-' else c)

/-- The token the format list is attempted on:
`s2 = s.replace(".", "/").strip()` for the already-stripped token. -/
def preprocessDate (s : String) : Chars :=
  stripL (dotsToSlashes (stripL s.toList))

/-- Embedding of `ImportPage._parse_date`. -/
def parse_date (s : String) : Except String String :=
  let s0 := stripL s.toList
  if s0 = [] then .error "Missing date"
  else
    match tryFormats (preprocessDate s) with
    | some (y, m, d) => .ok (formatYMD y m d)
    | none =>
      if fallbackCond s0 then .ok (fallbackResult s0)
      else .error ("Unrecognized date: " ++ String.mk s0)

/-- A canonical `YYYY-MM-DD` calendar-date string, following the spec's
words: ten characters, digits with `-` separators, denoting a valid
calendar date. -/
def validCanonicalDate (s : String) : Bool :=
  match s.toList with
  | [y1, y2, y3, y4, s1, m1, m2, s2, d1, d2] =>
    s1 = '-' && s2 = '-' &&
    ([y1, y2, y3, y4, m1, m2, d1, d2].all Char.isDigit) &&
    dateOk (digitsVal [y1, y2, y3, y4]) (digitsVal [m1, m2]) (digitsVal [d1, d2])
  | _ => false

/-! ## Amount parsing (`_parse_amount_to_cents`, `_amount_from_row`) -/

/-- Debit-family marker scan of the source:
`any(x in low for x in [" dr", "dr ", "debit", "withdrawal"])`. -/
def debitMarker (low : Chars) : Bool :=
  subL " dr".toList low || subL "dr ".toList low ||
  subL "debit".toList low || subL "withdrawal".toList low

/-- Credit-family marker scan of the source:
`any(x in low for x in [" cr", "cr ", "credit", "deposit"])`. -/
def creditMarker (low : Chars) : Bool :=
  subL " cr".toList low || subL "cr ".toList low ||
  subL "credit".toList low || subL "deposit".toList low

/-- The character class kept by the source's cleaning step:
digits, dot, minus, plus. -/
def keepC (c : Char) : Bool := c.isDigit || c = '.' || c = '-' || c = '+'

/-- The grammar `float(cleaned)` accepts for a string over digits, dot,
minus, plus: an optional single sign, then digits with at most one dot and
at least one digit.  The literal's exact value is returned as the pair
`(num, exp)` denoting `num / 10 ^ exp`; `float`'s conversion of that value
to an IEEE-754 binary64 double is `ratToDouble` below. -/
def floatParse (l : Chars) : Option (Int × Nat) :=
  let sl : Int × Chars :=
    match l with
    | '-' :: r => (-1, r)
    | '+' :: r => (1, r)
    | _ => (1, l)
  let ip := sl.2.takeWhile Char.isDigit
  let rest := sl.2.dropWhile Char.isDigit
  match rest with
  | [] => if ip = [] then none else some (sl.1 * digitsVal ip, 0)
  | '.' :: r2 =>
    let fp := r2.takeWhile Char.isDigit
    let rest2 := r2.dropWhile Char.isDigit
    if rest2 ≠ [] then none
    else if ip = [] ∧ fp = [] then none
    else some (sl.1 * (digitsVal ip * 10 ^ fp.length + digitsVal fp), fp.length)
  | _ => none

/-- Round-to-nearest-ties-to-even of the exact nonnegative value `n / d`
(`d` positive).  This is both the IEEE-754 default rounding used when a
value is rounded to a double, and Python's `round` on the exact value a
double represents. -/
def roundHalfEven (n d : Nat) : Nat :=
  let q := n / d
  let r := n % d
  if 2 * r < d then q
  else if d < 2 * r then q + 1
  else if q % 2 = 0 then q else q + 1

/-! ### IEEE-754 binary64

`float(cleaned)` and the product `abs(val) * 100` are computed by CPython
in binary64 doubles.  A nonnegative double is represented here exactly: a
finite value is `m * 2 ^ e` with `m < 2 ^ 53` (normals keep
`2 ^ 52 ≤ m`, subnormals are held at scale `e = -1074`), or infinity.
All arithmetic below is exact natural/integer arithmetic; recursions use
explicit fuel so that terms reduce. -/

/-- A nonnegative binary64 value. -/
inductive PyFloat where
  | finite (m : Nat) (e : Int)
  | inf
deriving DecidableEq, Repr

/-- Fuelled floor of the base-2 logarithm. -/
def log2F : Nat → Nat → Nat
  | 0, _ => 0
  | f + 1, n => if n < 2 then 0 else log2F f (n / 2) + 1

/-- `natLog2 n` is the floor of the base-2 logarithm of `n` (0 for 0). -/
def natLog2 (n : Nat) : Nat := log2F n n

/-- For `a < b`, the smallest `t ≥ 1` with `a * 2 ^ t ≥ b` (so that the
value `a / b` lies in `[2 ^ (-t), 2 ^ (-t + 1))`); fuelled doubling. -/
def expSearch : Nat → Nat → Nat → Nat → Nat
  | 0, _, _, t => t
  | f + 1, a2, b, t => if b ≤ a2 then t else expSearch f (a2 * 2) b (t + 1)

/-- Round the exact nonnegative rational `a / b` (`b` positive) to the
nearest binary64 double (ties to even), following IEEE-754: normals carry a
53-bit mantissa, values below `2 ^ (-1022)` are rounded at the subnormal
scale `2 ^ (-1074)`, and results at or above `2 ^ 1024` overflow to
infinity.  This is what C `strtod` (hence Python `float`) produces for a
decimal literal `a / 10 ^ k`. -/
def ratToDouble (a b : Nat) : PyFloat :=
  if a = 0 then .finite 0 0
  else
    let e : Int :=
      if b ≤ a then (natLog2 (a / b) : Int)
      else -(expSearch b (a * 2) b 1 : Int)
    if e < -1022 then .finite (roundHalfEven (a * 2 ^ 1074) b) (-1074)
    else
      let s : Int := 52 - e
      let m0 :=
        if 0 ≤ s then roundHalfEven (a * 2 ^ s.toNat) b
        else roundHalfEven a (b * 2 ^ (-s).toNat)
      let me : Nat × Int := if m0 = 2 ^ 53 then (2 ^ 52, e + 1) else (m0, e)
      if 1023 < me.2 then .inf else .finite me.1 (me.2 - 52)

/-- The binary64 product `v * 100`: the exact product of the represented
dyadic value with 100, rounded back to a double. -/
def mul100Double : PyFloat → PyFloat
  | .inf => .inf
  | .finite m e =>
    if 0 ≤ e then ratToDouble (100 * m * 2 ^ e.toNat) 1
    else ratToDouble (100 * m) (2 ^ (-e).toNat)

/-- Python's `round` on a nonnegative double: nearest integer, ties to
even, on the exact value the double represents; infinity raises
`OverflowError` (modelled as `none`). -/
def pyRoundDouble : PyFloat → Option Nat
  | .inf => none
  | .finite m e =>
    some (if 0 ≤ e then m * 2 ^ e.toNat else roundHalfEven m (2 ^ (-e).toNat))

/-- The degenerate cleaned strings the source rejects. -/
def degenerateCleaned : List Chars :=
  [['-'], ['+'], ['.'], ['-', '.'], ['+', '.']]

/-- Embedding of `ImportPage._parse_amount_to_cents`. -/
def parse_amount_to_cents (s : String) : Except String Int :=
  let raw := stripL s.toList
  if raw = [] then .error "Missing amount"
  else
    let t := stripL raw
    let pt : Int × Chars :=
      if t.head? = some '(' ∧ t.getLast? = some ')' then
        (-1, stripL (t.drop 1).dropLast)
      else (1, t)
    let low := pt.2.map lowerC
    let sign2 : Int := if debitMarker low then -1 else pt.1
    let sign3 : Int := if creditMarker low then 1 else sign2
    let cleaned := pt.2.filter keepC
    if cleaned = [] ∨ cleaned ∈ degenerateCleaned then
      .error ("Invalid amount: " ++ String.mk raw)
    else
      let sign4 : Int := if cleaned.head? = some '-' then -1 else sign3
      match floatParse cleaned with
      | none =>
        .error ("could not convert string to float: '" ++ String.mk cleaned ++ "'")
      | some v =>
        -- `abs(val)`: binary64 rounding is sign-symmetric, so the double of
        -- the literal's absolute value is the absolute value of `float(cleaned)`.
        match pyRoundDouble (mul100Double (ratToDouble v.1.natAbs (10 ^ v.2))) with
        | some cents => .ok (sign4 * (cents : Int))
        | none => .error "cannot convert float infinity to integer"

/-- Python indexing `row[i]` for the in-range cases (non-negative, or
negative counting from the end).  The out-of-range cases raise `IndexError`
in Python; they are unreachable from the scanner, whose accesses are guarded
by `i < len(row)` with indexes drawn from `{-1} ∪ ℕ` and `-1` excluded. -/
def rowCell (row : List String) (i : Int) : String :=
  let j : Int := if i < 0 then (row.length : Int) + i else i
  if 0 ≤ j ∧ j < (row.length : Int) then row.getD j.toNat "" else ""

/-- The source's local `debit_text`:
`row[debit_i].strip() if debit_i != -1 and debit_i < len(row) else ""`. -/
def debit_text (row : List String) (debit_i : Int) : String :=
  if debit_i ≠ -1 ∧ debit_i < (row.length : Int) then
    stripS (rowCell row debit_i)
  else ""

/-- The source's local `credit_text`, built the same way. -/
def credit_text (row : List String) (credit_i : Int) : String :=
  if credit_i ≠ -1 ∧ credit_i < (row.length : Int) then
    stripS (rowCell row credit_i)
  else ""

/-- Embedding of `ImportPage._amount_from_row`. -/
def amount_from_row (row : List String) (amt_i debit_i credit_i : Int) :
    Except String Int :=
  if amt_i ≠ -1 ∧ amt_i < (row.length : Int) then
    parse_amount_to_cents (stripS (rowCell row amt_i))
  else
    if debit_text row debit_i ≠ "" then
      (parse_amount_to_cents (debit_text row debit_i)).map
        fun v => -(v.natAbs : Int)
    else if credit_text row credit_i ≠ "" then
      (parse_amount_to_cents (credit_text row credit_i)).map
        fun v => (v.natAbs : Int)
    else .error "Missing amount (no debit/credit)"

/-! ## The import scanner (`_validate_mapping`, `_scan_full_file`,
`_transaction_exists`, `import_csv`)

The ledger (the `transactions` table, as far as the pipeline reads and
writes it) is modelled as a list of records.  A ledger row's description is
carried already `COALESCE`d to the empty string, matching the comparison
`COALESCE(description, '') = ?` of `_transaction_exists`;
`TransactionsRepo.add_transaction` only ever inserts non-null descriptions.
The insert is a parameter `ins` so that collaborator-level storage errors
(reaching the scanner's per-row `except` like any other exception) can be
modelled; `dbInsert` is the reliable instantiation, a plain SQL `INSERT`
appending the record. -/

/-- A normalized, persisted transaction record, as the duplicate check
compares it: account, canonical date, cents, (coalesced) description. -/
structure Rec where
  account_id : Int
  occurred_on : String
  amount_cents : Int
  description : String
deriving DecidableEq, Repr

/-- Embedding of `ImportPage._transaction_exists`: exact-match query. -/
def transaction_exists (ledger : List Rec) (r : Rec) : Bool :=
  ledger.contains r

/-- `TransactionsRepo.add_transaction`: an unconditional `INSERT`. -/
def dbInsert (ledger : List Rec) (r : Rec) : Except String (List Rec) :=
  .ok (ledger ++ [r])

/-- The column mapping and target account the scanner reads from the UI:
each combo's data is a zero-based column index or the sentinel `-1`. -/
structure ImportCfg where
  d_i : Int
  s_i : Int
  amt_i : Int
  debit_i : Int
  credit_i : Int
  account_id : Int
deriving DecidableEq, Repr

/-- The per-row body of `_scan_full_file`'s `try` block up to the duplicate
check: extract and normalize date, description and amount. -/
def parse_row (cfg : ImportCfg) (row : List String) : Except String Rec :=
  let date_raw :=
    if cfg.d_i < (row.length : Int) then stripS (rowCell row cfg.d_i) else ""
  let desc :=
    if cfg.s_i < (row.length : Int) then stripS (rowCell row cfg.s_i) else ""
  match parse_date date_raw with
  | .error e => .error e
  | .ok occurred_on =>
    match amount_from_row row cfg.amt_i cfg.debit_i cfg.credit_i with
    | .error e => .error e
    | .ok amount_cents => .ok ⟨cfg.account_id, occurred_on, amount_cents, desc⟩

/-- Per-row outcome tag (the spec's `RowOutcome`), recorded as a trace so
that per-row classifications can be compared across scan modes. -/
inductive RowTag where
  | accepted (r : Rec)
  | duplicate (r : Rec)
  | failed (e : String)
deriving DecidableEq, Repr

/-- The scanner's running state: the ledger plus the `imported`, `skipped`,
`failed` counters and the `errors` digest of the source, together with the
outcome trace. -/
structure ScanState where
  ledger : List Rec
  imported : Nat
  skipped : Nat
  failed : Nat
  errors : List String
  outcomes : List RowTag
deriving DecidableEq, Repr

/-- One iteration of `_scan_full_file`'s row loop. -/
def scan_row (ins : List Rec → Rec → Except String (List Rec))
    (dry_run : Bool) (cfg : ImportCfg) (st : ScanState) (row : List String) :
    ScanState :=
  match parse_row cfg row with
  | .error e =>
    { st with
      failed := st.failed + 1
      errors := if st.errors.length < 5 then st.errors ++ [e] else st.errors
      outcomes := st.outcomes ++ [.failed e] }
  | .ok r =>
    if transaction_exists st.ledger r then
      { st with skipped := st.skipped + 1, outcomes := st.outcomes ++ [.duplicate r] }
    else if dry_run then
      { st with imported := st.imported + 1, outcomes := st.outcomes ++ [.accepted r] }
    else
      match ins st.ledger r with
      | .ok ledger' =>
        { st with
          ledger := ledger'
          imported := st.imported + 1
          outcomes := st.outcomes ++ [.accepted r] }
      | .error e =>
        { st with
          failed := st.failed + 1
          errors := if st.errors.length < 5 then st.errors ++ [e] else st.errors
          outcomes := st.outcomes ++ [.failed e] }

/-- Embedding of `ImportPage._scan_full_file`: fold the row loop over the
data rows (header already excluded) starting from a fresh report state. -/
def scan_full_file (ins : List Rec → Rec → Except String (List Rec))
    (dry_run : Bool) (cfg : ImportCfg) (rows : List (List String))
    (ledger : List Rec) : ScanState :=
  rows.foldl (scan_row ins dry_run cfg) ⟨ledger, 0, 0, 0, [], []⟩

/-- Embedding of `ImportPage._validate_mapping`. -/
def validate_mapping (d_i s_i amt_i debit_i credit_i : Int)
    (account_id : Option Int) : Bool × String :=
  if d_i = -1 ∨ s_i = -1 ∨ account_id = none then
    (false, "Please choose Date, Desc, and an Account.")
  else if amt_i = -1 ∧ debit_i = -1 ∧ credit_i = -1 then
    (false, "Choose Amount, or Debit/Credit columns.")
  else (true, "")

/-- Embedding of `ImportPage.import_csv`: validate the mapping (stopping
with no scan on failure), run a dry-run pass for the confirmation dialog,
and on confirmation run the commit pass.  Returns the final ledger, the
reported `(imported, skipped, failed, errors)` if a commit ran, and the
number of data-row reads performed. -/
def import_csv (d_i s_i amt_i debit_i credit_i : Int) (account_id : Option Int)
    (confirm : Bool) (rows : List (List String)) (ledger : List Rec) :
    List Rec × Option (Nat × Nat × Nat × List String) × Nat :=
  match validate_mapping d_i s_i amt_i debit_i credit_i account_id with
  | (false, _) => (ledger, none, 0)
  | (true, _) =>
    match account_id with
    | none => (ledger, none, 0)
    | some acct =>
      let cfg : ImportCfg := ⟨d_i, s_i, amt_i, debit_i, credit_i, acct⟩
      if confirm then
        let st := scan_full_file dbInsert false cfg rows ledger
        (st.ledger, some (st.imported, st.skipped, st.failed, st.errors),
          2 * rows.length)
      else (ledger, none, rows.length)

/-- The records of the rows that normalize successfully, in file order. -/
def parsedRecs (cfg : ImportCfg) (rows : List (List String)) : List Rec :=
  rows.filterMap fun row => (parse_row cfg row).toOption

/-- Is an outcome a failure? -/
def isFailedTag : RowTag → Bool
  | .failed _ => true
  | _ => false

/-- The failure messages of an outcome trace, in row order. -/
def failMsgs (l : List RowTag) : List String :=
  l.filterMap fun t => match t with | .failed e => some e | _ => none

/-! ## Helper lemmas -/

lemma digVal_dChar : ∀ k, k < 10 → digVal (dChar k) = k := by decide

lemma isDigit_dChar : ∀ k, k < 10 → (dChar k).isDigit = true := by decide

lemma natCharsAux_step (f n : Nat) (acc : Chars) (h : ¬ n < 10) :
    natCharsAux (f + 1) n acc = natCharsAux f (n / 10) (dChar (n % 10) :: acc) := by
  simp [natCharsAux, h]

lemma natCharsAux_last (f n : Nat) (acc : Chars) (h : n < 10) :
    natCharsAux (f + 1) n acc = dChar n :: acc := by
  simp [natCharsAux, h]

lemma natCharsAux_four (n : Nat) (acc : Chars) :
    ∀ f, 3 ≤ f → 1000 ≤ n → n < 10000 →
      natCharsAux (f + 1) n acc =
        dChar (n / 1000) :: dChar (n / 100 % 10) :: dChar (n / 10 % 10) ::
          dChar (n % 10) :: acc := by
  intro f hf h1 h2
  obtain ⟨k, rfl⟩ : ∃ k, f = k + 1 + 1 + 1 := ⟨f - 3, by omega⟩
  have e1 : ¬ n < 10 := by omega
  have e2 : ¬ n / 10 < 10 := by omega
  have e3 : ¬ n / 10 / 10 < 10 := by omega
  have e4 : n / 10 / 10 / 10 < 10 := by omega
  rw [natCharsAux_step _ _ _ e1, natCharsAux_step _ _ _ e2,
    natCharsAux_step _ _ _ e3, natCharsAux_last _ _ _ e4]
  rw [(by omega : n / 10 / 10 / 10 = n / 1000),
    (by omega : n / 10 / 10 % 10 = n / 100 % 10)]

lemma natChars_four (n : Nat) (h1 : 1000 ≤ n) (h2 : n < 10000) :
    natChars n =
      [dChar (n / 1000), dChar (n / 100 % 10), dChar (n / 10 % 10),
       dChar (n % 10)] := by
  exact natCharsAux_four n [] n (by omega) h1 h2

lemma dateOk_bounds {y m d : Nat} (h : dateOk y m d = true) :
    1 ≤ y ∧ y ≤ 9999 ∧ 1 ≤ m ∧ m ≤ 12 ∧ 1 ≤ d ∧ d ≤ 31 := by
  have h' := h
  simp only [dateOk, Bool.and_eq_true, decide_eq_true_eq] at h'
  obtain ⟨hy1, hy2, hm1, hm2, hd1, hd2⟩ := h'
  refine ⟨hy1, hy2, hm1, hm2, hd1, ?_⟩
  have : daysInMonth y m ≤ 31 := by
    unfold daysInMonth
    split_ifs <;> omega
  omega

/-- The `strftime` rendering of a validated date with a four-digit year is a
canonical calendar-date string. -/
lemma validCanonicalDate_formatYMD {y m d : Nat} (hok : dateOk y m d = true)
    (hy : 1000 ≤ y) : validCanonicalDate (formatYMD y m d) = true := by
  obtain ⟨hy1, hy2, hm1, hm2, hd1, hd2⟩ := dateOk_bounds hok
  have hnat := natChars_four y hy (by omega)
  have hlist : (formatYMD y m d).toList =
      [dChar (y / 1000), dChar (y / 100 % 10), dChar (y / 10 % 10),
       dChar (y % 10), '-', dChar (m / 10 % 10), dChar (m % 10), '-',
       dChar (d / 10 % 10), dChar (d % 10)] := by
    simp [formatYMD, hnat, pad2, String.toList]
  simp only [validCanonicalDate, hlist]
  have g1 : y / 1000 < 10 := by omega
  have g2 : y / 100 % 10 < 10 := by omega
  have g3 : y / 10 % 10 < 10 := by omega
  have g4 : y % 10 < 10 := by omega
  have g5 : m / 10 % 10 < 10 := by omega
  have g6 : m % 10 < 10 := by omega
  have g7 : d / 10 % 10 < 10 := by omega
  have g8 : d % 10 < 10 := by omega
  have hy' : digitsVal [dChar (y / 1000), dChar (y / 100 % 10),
      dChar (y / 10 % 10), dChar (y % 10)] = y := by
    simp [digitsVal, digVal_dChar _ g1, digVal_dChar _ g2, digVal_dChar _ g3,
      digVal_dChar _ g4]
    omega
  have hm' : digitsVal [dChar (m / 10 % 10), dChar (m % 10)] = m := by
    simp [digitsVal, digVal_dChar _ g5, digVal_dChar _ g6]
    omega
  have hd' : digitsVal [dChar (d / 10 % 10), dChar (d % 10)] = d := by
    simp [digitsVal, digVal_dChar _ g7, digVal_dChar _ g8]
    omega
  simp [List.all_cons, isDigit_dChar _ g1, isDigit_dChar _ g2,
    isDigit_dChar _ g3, isDigit_dChar _ g4, isDigit_dChar _ g5,
    isDigit_dChar _ g6, isDigit_dChar _ g7, isDigit_dChar _ g8, hy', hm', hd',
    hok]

lemma bind_mkDate_dateOk {o : Option (Nat × Nat × Nat)} {t : Nat × Nat × Nat}
    (h : o.bind mkDate = some t) : dateOk t.1 t.2.1 t.2.2 = true := by
  cases o with
  | none => simp at h
  | some v =>
    have h' : mkDate v = some t := h
    unfold mkDate at h'
    split_ifs at h' with hd
    cases h'
    exact hd

lemma isWsp_dts (c : Char) :
    isWsp (if c = '.' then '/' else c) = isWsp c := by
  by_cases h : c = '.'
  · subst h; decide
  · simp [h]

lemma stripL_dts (l : Chars) :
    stripL (dotsToSlashes l) = dotsToSlashes (stripL l) := by
  have hw : isWsp ∘ (fun c => if c = '.' then '/' else c) = isWsp :=
    funext fun c => isWsp_dts c
  unfold stripL dotsToSlashes
  rw [List.dropWhile_map, hw, ← List.map_reverse, List.dropWhile_map, hw,
    ← List.map_reverse]

lemma dts_nil_iff (l : Chars) : dotsToSlashes l = [] ↔ l = [] := by
  simp [dotsToSlashes]

lemma dts_idem (l : Chars) :
    dotsToSlashes (dotsToSlashes l) = dotsToSlashes l := by
  have hf : ((fun c => if c = '.' then '/' else c) ∘
      (fun c => if c = '.' then '/' else c)) =
      (fun c => if c = '.' then '/' else c) := by
    funext c
    by_cases h : c = '.'
    · subst h; rfl
    · simp [h]
  simp [dotsToSlashes, List.map_map, hf]

lemma preprocessDate_dts (s : String) :
    preprocessDate (String.mk (dotsToSlashes s.toList)) = preprocessDate s := by
  show stripL (dotsToSlashes (stripL (dotsToSlashes s.toList))) = _
  rw [stripL_dts s.toList, dts_idem]
  rfl

/-- Every date produced by the format list passed `datetime` validation. -/
lemma firstFmt_dateOk :
    ∀ (L : List (Chars → Option (Nat × Nat × Nat))) (s : Chars)
      (t : Nat × Nat × Nat), firstFmt L s = some t →
      dateOk t.1 t.2.1 t.2.2 = true := by
  intro L
  induction L with
  | nil => intro s t h; simp [firstFmt] at h
  | cons p ps ih =>
    intro s t h
    unfold firstFmt at h
    cases h1 : (p s).bind mkDate with
    | some v =>
      rw [h1] at h
      simp at h
      subst h
      exact bind_mkDate_dateOk h1
    | none =>
      rw [h1] at h
      simp at h
      exact ih s t h

lemma texists_iff {lg : List Rec} {r : Rec} :
    transaction_exists lg r = true ↔ r ∈ lg := by
  show List.elem r lg = true ↔ r ∈ lg
  exact List.elem_iff

lemma texists_append {lg ex : List Rec} {r : Rec} (h : r ∉ ex) :
    transaction_exists (lg ++ ex) r = transaction_exists lg r := by
  rw [Bool.eq_iff_iff, texists_iff, texists_iff, List.mem_append]
  constructor
  · rintro (hm | hm)
    · exact hm
    · exact absurd hm h
  · exact Or.inl

lemma scan_row_mem {dry : Bool} {cfg : ImportCfg} {st : ScanState}
    {row : List String} {r : Rec} (h : r ∈ st.ledger) :
    r ∈ (scan_row dbInsert dry cfg st row).ledger := by
  unfold scan_row
  cases hp : parse_row cfg row with
  | error e => exact h
  | ok rec =>
    by_cases ht : transaction_exists st.ledger rec
    · simp only [ht, if_true]
      exact h
    · simp only [ht, if_false, Bool.false_eq_true]
      by_cases hd : dry
      · simp only [hd, if_true]
        exact h
      · simp only [hd, if_false, dbInsert]
        exact List.mem_append_left _ h

lemma foldl_scan_mem (dry : Bool) (cfg : ImportCfg) :
    ∀ (rows : List (List String)) (st : ScanState) (r : Rec),
      r ∈ st.ledger →
      r ∈ (List.foldl (scan_row dbInsert dry cfg) st rows).ledger := by
  intro rows
  induction rows with
  | nil => intro st r h; exact h
  | cons a t ih =>
    intro st r h
    rw [List.foldl_cons]
    exact ih _ r (scan_row_mem h)

/-- After a commit scan, every successfully-normalized row's record is in
the resulting ledger (it was either just inserted or already present). -/
lemma foldl_scan_commits (cfg : ImportCfg) :
    ∀ (rows : List (List String)) (st : ScanState) (row : List String)
      (r : Rec), row ∈ rows → parse_row cfg row = Except.ok r →
      r ∈ (List.foldl (scan_row dbInsert false cfg) st rows).ledger := by
  intro rows
  induction rows with
  | nil => intro st row r h; exact absurd h (List.not_mem_nil row)
  | cons a t ih =>
    intro st row r hmem hp
    rw [List.foldl_cons]
    rcases List.mem_cons.mp hmem with heq | hmem'
    · subst heq
      apply foldl_scan_mem
      unfold scan_row
      rw [hp]
      by_cases ht : transaction_exists st.ledger r
      · simp only [ht, if_true]
        exact texists_iff.mp ht
      · simp only [ht, if_false, Bool.false_eq_true, dbInsert]
        exact List.mem_append_right _ (List.mem_singleton.mpr rfl)
    · exact ih _ row r hmem' hp

/-- A scan over rows whose records are all already in the ledger skips every
row as a duplicate and imports nothing. -/
lemma foldl_scan_all_dup (ins : List Rec → Rec → Except String (List Rec))
    (dry : Bool) (cfg : ImportCfg) :
    ∀ (rows : List (List String)) (st : ScanState),
      (∀ row ∈ rows, ∃ r, parse_row cfg row = Except.ok r ∧ r ∈ st.ledger) →
      (List.foldl (scan_row ins dry cfg) st rows).imported = st.imported ∧
      (List.foldl (scan_row ins dry cfg) st rows).skipped =
        st.skipped + rows.length ∧
      (List.foldl (scan_row ins dry cfg) st rows).failed = st.failed ∧
      (List.foldl (scan_row ins dry cfg) st rows).ledger = st.ledger := by
  intro rows
  induction rows with
  | nil => intro st h; exact ⟨rfl, rfl, rfl, rfl⟩
  | cons a t ih =>
    intro st hall
    obtain ⟨r, hp, hmem⟩ := hall a (List.mem_cons_self a t)
    have hst' : scan_row ins dry cfg st a =
        { st with skipped := st.skipped + 1,
                  outcomes := st.outcomes ++ [RowTag.duplicate r] } := by
      have htx : transaction_exists st.ledger r = true := texists_iff.mpr hmem
      unfold scan_row
      rw [hp]
      simp only [htx, if_true]
    rw [List.foldl_cons, hst']
    have hall' : ∀ row ∈ t, ∃ r', parse_row cfg row = Except.ok r' ∧
        r' ∈ ({ st with skipped := st.skipped + 1,
                        outcomes := st.outcomes ++ [RowTag.duplicate r] } :
          ScanState).ledger := by
      intro row hr
      obtain ⟨r', hp', hm'⟩ := hall row (List.mem_cons_of_mem a hr)
      exact ⟨r', hp', hm'⟩
    obtain ⟨h1, h2, h3, h4⟩ := ih _ hall'
    refine ⟨h1, ?_, h3, h4⟩
    rw [h2]
    simp only [List.length_cons]
    omega

lemma parsedRecs_cons_err {cfg : ImportCfg} {a : List String}
    {t : List (List String)} {e : String} (hp : parse_row cfg a = .error e) :
    parsedRecs cfg (a :: t) = parsedRecs cfg t := by
  simp [parsedRecs, List.filterMap_cons, hp, Except.toOption]

lemma parsedRecs_cons_ok {cfg : ImportCfg} {a : List String}
    {t : List (List String)} {r : Rec} (hp : parse_row cfg a = .ok r) :
    parsedRecs cfg (a :: t) = r :: parsedRecs cfg t := by
  simp [parsedRecs, List.filterMap_cons, hp, Except.toOption]

/-- Core of the dry-run/commit agreement: a dry-run pass over ledger `lg`
and a commit pass over `lg ++ extra` classify identically, provided no row
of the file normalizes to a record of `extra` and no two rows normalize to
the same record. -/
lemma dry_commit_gen (cfg : ImportCfg) :
    ∀ (rows : List (List String)) (extra : List Rec) (lg : List Rec)
      (imp skp fl : Nat) (err : List String) (outs : List RowTag),
      (parsedRecs cfg rows).Nodup →
      (∀ row ∈ rows, ∀ r, parse_row cfg row = Except.ok r → r ∉ extra) →
      ((List.foldl (scan_row dbInsert true cfg)
          ⟨lg, imp, skp, fl, err, outs⟩ rows).imported =
        (List.foldl (scan_row dbInsert false cfg)
          ⟨lg ++ extra, imp, skp, fl, err, outs⟩ rows).imported ∧
       (List.foldl (scan_row dbInsert true cfg)
          ⟨lg, imp, skp, fl, err, outs⟩ rows).skipped =
        (List.foldl (scan_row dbInsert false cfg)
          ⟨lg ++ extra, imp, skp, fl, err, outs⟩ rows).skipped ∧
       (List.foldl (scan_row dbInsert true cfg)
          ⟨lg, imp, skp, fl, err, outs⟩ rows).failed =
        (List.foldl (scan_row dbInsert false cfg)
          ⟨lg ++ extra, imp, skp, fl, err, outs⟩ rows).failed ∧
       (List.foldl (scan_row dbInsert true cfg)
          ⟨lg, imp, skp, fl, err, outs⟩ rows).errors =
        (List.foldl (scan_row dbInsert false cfg)
          ⟨lg ++ extra, imp, skp, fl, err, outs⟩ rows).errors ∧
       (List.foldl (scan_row dbInsert true cfg)
          ⟨lg, imp, skp, fl, err, outs⟩ rows).outcomes =
        (List.foldl (scan_row dbInsert false cfg)
          ⟨lg ++ extra, imp, skp, fl, err, outs⟩ rows).outcomes) := by
  intro rows
  induction rows with
  | nil => intro extra lg imp skp fl err outs hnd hdisj
           exact ⟨rfl, rfl, rfl, rfl, rfl⟩
  | cons a t ih =>
    intro extra lg imp skp fl err outs hnd hdisj
    rw [List.foldl_cons, List.foldl_cons]
    cases hp : parse_row cfg a with
    | error e =>
      have hD : scan_row dbInsert true cfg ⟨lg, imp, skp, fl, err, outs⟩ a =
          ⟨lg, imp, skp, fl + 1,
           if err.length < 5 then err ++ [e] else err,
           outs ++ [RowTag.failed e]⟩ := by
        unfold scan_row
        rw [hp]
      have hC : scan_row dbInsert false cfg
          ⟨lg ++ extra, imp, skp, fl, err, outs⟩ a =
          ⟨lg ++ extra, imp, skp, fl + 1,
           if err.length < 5 then err ++ [e] else err,
           outs ++ [RowTag.failed e]⟩ := by
        unfold scan_row
        rw [hp]
      rw [hD, hC]
      exact ih extra lg imp skp (fl + 1) _ _
        (by rwa [parsedRecs_cons_err hp] at hnd)
        (fun row hr => hdisj row (List.mem_cons_of_mem a hr))
    | ok r =>
      have hrex : r ∉ extra := hdisj a (List.mem_cons_self a t) r hp
      have htx : transaction_exists (lg ++ extra) r = transaction_exists lg r :=
        texists_append hrex
      have hnd' := List.nodup_cons.mp (by rwa [parsedRecs_cons_ok hp] at hnd)
      by_cases ht : transaction_exists lg r = true
      · have hD : scan_row dbInsert true cfg ⟨lg, imp, skp, fl, err, outs⟩ a =
            ⟨lg, imp, skp + 1, fl, err, outs ++ [RowTag.duplicate r]⟩ := by
          unfold scan_row
          rw [hp]
          simp only [ht, if_true]
        have hC : scan_row dbInsert false cfg
            ⟨lg ++ extra, imp, skp, fl, err, outs⟩ a =
            ⟨lg ++ extra, imp, skp + 1, fl, err,
             outs ++ [RowTag.duplicate r]⟩ := by
          unfold scan_row
          rw [hp]
          simp only [htx, ht, if_true]
        rw [hD, hC]
        exact ih extra lg imp (skp + 1) fl err _ hnd'.2
          (fun row hr => hdisj row (List.mem_cons_of_mem a hr))
      · have htb : transaction_exists lg r = false := by
          revert ht
          cases transaction_exists lg r <;> simp
        have htb' : transaction_exists (lg ++ extra) r = false := by
          rw [htx, htb]
        have hD : scan_row dbInsert true cfg ⟨lg, imp, skp, fl, err, outs⟩ a =
            ⟨lg, imp + 1, skp, fl, err, outs ++ [RowTag.accepted r]⟩ := by
          unfold scan_row
          rw [hp]
          simp only [htb, Bool.false_eq_true, if_false, if_true]
        have hC : scan_row dbInsert false cfg
            ⟨lg ++ extra, imp, skp, fl, err, outs⟩ a =
            ⟨lg ++ (extra ++ [r]), imp + 1, skp, fl, err,
             outs ++ [RowTag.accepted r]⟩ := by
          unfold scan_row
          rw [hp]
          simp only [htb', Bool.false_eq_true, if_false, dbInsert,
            List.append_assoc]
        rw [hD, hC]
        refine ih (extra ++ [r]) lg (imp + 1) skp fl err _ hnd'.2 ?_
        intro row hr r' hp' hmem
        rcases List.mem_append.mp hmem with hm | hm
        · exact hdisj row (List.mem_cons_of_mem a hr) r' hp' hm
        · have hr'eq : r' = r := List.mem_singleton.mp hm
          subst hr'eq
          exact hnd'.1 (List.mem_filterMap.mpr
            ⟨row, hr, by simp [hp', Except.toOption]⟩)

lemma failMsgs_append (l₁ l₂ : List RowTag) :
    failMsgs (l₁ ++ l₂) = failMsgs l₁ ++ failMsgs l₂ :=
  List.filterMap_append l₁ l₂ _

lemma errors_take_update (msgs : List String) (e : String) :
    (if (msgs.take 5).length < 5 then msgs.take 5 ++ [e] else msgs.take 5) =
      (msgs ++ [e]).take 5 := by
  rcases le_or_lt 5 msgs.length with h | h
  · have h1 : (msgs.take 5).length = 5 := by
      rw [List.length_take]
      exact inf_eq_left.mpr h
    rw [if_neg (by rw [h1]; omega), List.take_append_of_le_length h]
  · have h1 : msgs.take 5 = msgs := List.take_of_length_le (le_of_lt h)
    rw [if_pos (by rw [h1]; exact h), h1,
      List.take_of_length_le (by simp; omega)]

/-- One scanner iteration preserves the report-digest invariant: `errors`
is the first five failure messages, `failed` counts the failed outcomes,
and exactly one outcome is appended per row. -/
lemma scan_row_trace (ins : List Rec → Rec → Except String (List Rec))
    (dry : Bool) (cfg : ImportCfg) (st : ScanState) (row : List String)
    (h1 : st.errors = (failMsgs st.outcomes).take 5)
    (h2 : st.failed = st.outcomes.countP isFailedTag) :
    (scan_row ins dry cfg st row).errors =
      (failMsgs (scan_row ins dry cfg st row).outcomes).take 5 ∧
    (scan_row ins dry cfg st row).failed =
      (scan_row ins dry cfg st row).outcomes.countP isFailedTag ∧
    (scan_row ins dry cfg st row).outcomes.length = st.outcomes.length + 1 := by
  have hfail : ∀ e : String,
      (if st.errors.length < 5 then st.errors ++ [e] else st.errors) =
        (failMsgs (st.outcomes ++ [RowTag.failed e])).take 5 ∧
      st.failed + 1 =
        (st.outcomes ++ [RowTag.failed e]).countP isFailedTag := by
    intro e
    constructor
    · rw [h1, failMsgs_append]
      have : failMsgs [RowTag.failed e] = [e] := rfl
      rw [this]
      exact errors_take_update (failMsgs st.outcomes) e
    · rw [h2, List.countP_append]
      rfl
  have hpass : ∀ tg : RowTag, isFailedTag tg = false →
      st.errors = (failMsgs (st.outcomes ++ [tg])).take 5 ∧
      st.failed = (st.outcomes ++ [tg]).countP isFailedTag := by
    intro tg htg
    have hf : failMsgs [tg] = [] := by
      cases tg <;> first | rfl | (exfalso; simp [isFailedTag] at htg)
    have hc : ([tg].countP isFailedTag) = 0 := by
      simp [List.countP_cons, htg]
    constructor
    · rw [failMsgs_append, hf, List.append_nil]
      exact h1
    · rw [List.countP_append, hc]
      omega
  unfold scan_row
  cases hp : parse_row cfg row with
  | error e =>
    obtain ⟨he, hf⟩ := hfail e
    exact ⟨he, hf, by simp⟩
  | ok r =>
    by_cases ht : transaction_exists st.ledger r = true
    · simp only [ht, if_true]
      obtain ⟨he, hf⟩ := hpass (RowTag.duplicate r) rfl
      exact ⟨he, hf, by simp⟩
    · have htb : transaction_exists st.ledger r = false := by
        revert ht
        cases transaction_exists st.ledger r <;> simp
      simp only [htb, Bool.false_eq_true, if_false]
      by_cases hd : dry = true
      · simp only [hd, if_true]
        obtain ⟨he, hf⟩ := hpass (RowTag.accepted r) rfl
        exact ⟨he, hf, by simp⟩
      · have hd' : dry = false := by
          revert hd
          cases dry <;> simp
        simp only [hd', Bool.false_eq_true, if_false]
        cases hi : ins st.ledger r with
        | ok lg' =>
          obtain ⟨he, hf⟩ := hpass (RowTag.accepted r) rfl
          exact ⟨he, hf, by simp⟩
        | error e =>
          obtain ⟨he, hf⟩ := hfail e
          exact ⟨he, hf, by simp⟩

/-- The report-digest invariant holds after scanning any row list. -/
lemma foldl_scan_trace (ins : List Rec → Rec → Except String (List Rec))
    (dry : Bool) (cfg : ImportCfg) :
    ∀ (rows : List (List String)) (st : ScanState),
      st.errors = (failMsgs st.outcomes).take 5 →
      st.failed = st.outcomes.countP isFailedTag →
      ((List.foldl (scan_row ins dry cfg) st rows).errors =
        (failMsgs (List.foldl (scan_row ins dry cfg) st rows).outcomes).take 5 ∧
       (List.foldl (scan_row ins dry cfg) st rows).failed =
        (List.foldl (scan_row ins dry cfg) st rows).outcomes.countP
          isFailedTag ∧
       (List.foldl (scan_row ins dry cfg) st rows).outcomes.length =
        st.outcomes.length + rows.length) := by
  intro rows
  induction rows with
  | nil => intro st h1 h2; exact ⟨h1, h2, rfl⟩
  | cons a t ih =>
    intro st h1 h2
    rw [List.foldl_cons]
    obtain ⟨e1, e2, e3⟩ := scan_row_trace ins dry cfg st a h1 h2
    obtain ⟨f1, f2, f3⟩ := ih (scan_row ins dry cfg st a) e1 e2
    refine ⟨f1, f2, ?_⟩
    rw [f3, e3, List.length_cons]
    omega

lemma tryFormats_nil : tryFormats ([] : Chars) = none := rfl

lemma preprocessDate_of_nil {s : String} (h : stripL s.toList = []) :
    preprocessDate s = [] := by
  unfold preprocessDate
  rw [h]
  rfl

/-- When the format list succeeds on the preprocessed token, its result is
what `parse_date` returns. -/
lemma parse_date_of_tryFormats {s : String} {y m d : Nat}
    (h : tryFormats (preprocessDate s) = some (y, m, d)) :
    parse_date s = Except.ok (formatYMD y m d) := by
  have hne : stripL s.toList ≠ [] := by
    intro h0
    rw [preprocessDate_of_nil h0, tryFormats_nil] at h
    exact Option.noConfusion h
  simp only [parse_date]
  rw [if_neg hne, h]

/-- Concrete fixtures for the closed instances below. -/
def cfgEx : ImportCfg := ⟨0, 1, 2, -1, -1, 7⟩

def rowEx : List String := ["2024-01-02", "lunch", "5.00"]

def rowEx2 : List String := ["2024-01-03", "coffee", "(2.50)"]

def rowBad : List String := ["not-a-date", "x", "1.00"]

/-! ## Claim theorems -/

/-- C5 counterexample: the claim's final conjunct fails — the fallback can
succeed on a token that is not a calendar date.  `"2024-02-30"` fails every
format (February has no 30th) but satisfies the fallback guard, so
`_parse_date` returns `"2024-02-30"`, which is not a canonical calendar
date. -/
theorem parse_date_fallback_not_calendar :
    parse_date "2024-02-30" = Except.ok "2024-02-30" ∧
    validCanonicalDate "2024-02-30" = false := by decide

/-- C5 (amended): date normalization attempts the fixed ordered format
list, the first successfully parsing format winning, and `parse_date`
returns its `strftime` rendering, a validated calendar date (canonical
`YYYY-MM-DD` whenever the year is at least 1000); if no format parses, it
succeeds exactly under the fallback guard (length at least 10, `-` or `/`
at indexes 4 and 7), returning the first ten characters with separators
normalized to `-` — which need not be a calendar date; otherwise it fails
with `InvalidDate` (empty tokens fail with the missing-date error). -/
theorem parse_date_characterization :
    (∀ (s : String) (y m d : Nat),
      tryFormats (preprocessDate s) = some (y, m, d) →
      parse_date s = Except.ok (formatYMD y m d) ∧ dateOk y m d = true ∧
      (1000 ≤ y → validCanonicalDate (formatYMD y m d) = true)) ∧
    (∀ s : String, stripL s.toList ≠ [] →
      tryFormats (preprocessDate s) = none →
      parse_date s = (if fallbackCond (stripL s.toList)
        then Except.ok (fallbackResult (stripL s.toList))
        else Except.error
          ("Unrecognized date: " ++ String.mk (stripL s.toList)))) ∧
    (∀ s : String, stripL s.toList = [] →
      parse_date s = Except.error "Missing date") := by
  refine ⟨?_, ?_, ?_⟩
  · intro s y m d h
    have hok : dateOk y m d = true := firstFmt_dateOk fmtList (preprocessDate s) (y, m, d) h
    exact ⟨parse_date_of_tryFormats h, hok,
      fun hy => validCanonicalDate_formatYMD hok hy⟩
  · intro s hne h
    simp only [parse_date]
    rw [if_neg hne, h]
  · intro s h0
    simp only [parse_date]
    rw [if_pos h0]

/-- C5 witness: the format path at `"2024-01-02"` and the fallback path at
`"2024-13-01"` (no format parses month 13; the guard holds). -/
theorem parse_date_characterization_witness :
    parse_date "2024-01-02" = Except.ok "2024-01-02" ∧
    validCanonicalDate "2024-01-02" = true ∧
    parse_date "2024-13-01" = Except.ok "2024-13-01" := by
  have h1 := parse_date_characterization.1 "2024-01-02" 2024 1 2 (by decide)
  have h2 := parse_date_characterization.2.1 "2024-13-01" (by decide) (by decide)
  exact ⟨h1.1.trans (by decide), (h1.2.2 (by decide)).trans (by decide),
    h2.trans (by decide)⟩

/-- C6: the five documented amount normalizations, including the leading
minus overriding a credit marker. -/
theorem amount_examples :
    parse_amount_to_cents "(12.50)" = Except.ok (-1250) ∧
    parse_amount_to_cents "$1,234.56" = Except.ok 123456 ∧
    parse_amount_to_cents "45.00 CR" = Except.ok 4500 ∧
    parse_amount_to_cents "45.00 DR" = Except.ok (-4500) ∧
    parse_amount_to_cents "-5 CR" = Except.ok (-500) := by decide

/-- C7 counterexample: Python's `round` is half-to-even, not
half-away-from-zero: `"1.125"` normalizes to 112 cents, not 113. -/
theorem amount_half_cent_not_away :
    parse_amount_to_cents "1.125" = Except.ok 112 ∧
    parse_amount_to_cents "1.125" ≠ Except.ok 113 ∧
    parse_amount_to_cents "(1.125)" = Except.ok (-112) ∧
    parse_amount_to_cents "(1.125)" ≠ Except.ok (-113) := by decide

/-- C7 (amended): rounding happens on binary64 doubles — the normalizer
rounds the double product `abs(float(token)) * 100` with Python's `round`,
which is ties-to-even on the exact value the double represents, and applies
the resolved sign.  When that product is exactly half a cent the even cent
wins: `"1.125"` (exactly representable, exact product 112.5) yields 112 and
`"(1.125)"` yields -112, and `"2.675"` (product rounds to exactly 267.5)
yields 268; but a decimal-halfway token whose double product lands off the
exact half follows the double instead: `"1.015"` yields 101 (product
101.49999999999999) and `"0.005"` yields 0 (product exactly 0.5). -/
theorem amount_double_rounding :
    (∀ k : Nat, roundHalfEven (2 * k + 1) 2 = if k % 2 = 0 then k else k + 1) ∧
    parse_amount_to_cents "1.125" = Except.ok 112 ∧
    parse_amount_to_cents "(1.125)" = Except.ok (-112) ∧
    parse_amount_to_cents "2.675" = Except.ok 268 ∧
    parse_amount_to_cents "1.015" = Except.ok 101 ∧
    parse_amount_to_cents "0.005" = Except.ok 0 := by
  refine ⟨?_, by decide, by decide, by decide, by decide, by decide⟩
  intro k
  unfold roundHalfEven
  rw [(by omega : (2 * k + 1) / 2 = k), (by omega : (2 * k + 1) % 2 = 1)]
  norm_num

/-- C8 counterexample: with the amount column mapped (index 1) but the row
too short, the code does not fail with `MissingAmount`; it falls back to
the mapped debit column (index 0) and returns -700. -/
theorem amount_column_short_row_fallback :
    amount_from_row ["7.00"] 1 0 (-1) = Except.ok (-700) ∧
    amount_from_row ["7.00"] 1 0 (-1) ≠
      Except.error "Missing amount (no debit/credit)" := by decide

/-- C8 (amended): when the single amount column is set and the row is long
enough to contain it, the amount is taken exclusively from that column and
the debit/credit columns are never consulted; when the row is too short to
contain the amount column the scanner instead falls back to the
debit/credit columns — a non-empty debit text gives the negated absolute
parsed value, otherwise a non-empty credit text gives the absolute parsed
value — and it fails with `MissingAmount` exactly when both yield no text
(unset, out of range, or blank). -/
theorem amount_column_precedence (row : List String)
    (amt_i debit_i credit_i : Int) (h1 : amt_i ≠ -1) :
    (amt_i < (row.length : Int) →
      amount_from_row row amt_i debit_i credit_i =
        parse_amount_to_cents (stripS (rowCell row amt_i))) ∧
    ((row.length : Int) ≤ amt_i → debit_text row debit_i ≠ "" →
      amount_from_row row amt_i debit_i credit_i =
        (parse_amount_to_cents (debit_text row debit_i)).map
          fun v => -(v.natAbs : Int)) ∧
    ((row.length : Int) ≤ amt_i → debit_text row debit_i = "" →
      credit_text row credit_i ≠ "" →
      amount_from_row row amt_i debit_i credit_i =
        (parse_amount_to_cents (credit_text row credit_i)).map
          fun v => (v.natAbs : Int)) ∧
    ((row.length : Int) ≤ amt_i → debit_text row debit_i = "" →
      credit_text row credit_i = "" →
      amount_from_row row amt_i debit_i credit_i =
        Except.error "Missing amount (no debit/credit)") := by
  refine ⟨?_, ?_, ?_, ?_⟩
  · intro h2
    unfold amount_from_row
    rw [if_pos ⟨h1, h2⟩]
  · intro h2 hdne
    unfold amount_from_row
    rw [if_neg (by intro hcon; omega), if_pos hdne]
  · intro h2 hd0 hcne
    unfold amount_from_row
    rw [if_neg (by intro hcon; omega), if_neg (by simp [hd0]), if_pos hcne]
  · intro h2 hd0 hc0
    unfold amount_from_row
    rw [if_neg (by intro hcon; omega), if_neg (by simp [hd0]),
      if_neg (by simp [hc0])]

/-- C8 witness: all four branches — amount column in range; short row with
debit text; short row with blank debit and credit text; short row where the
debit column is mapped but out of range and no credit is mapped. -/
theorem amount_column_precedence_witness :
    amount_from_row ["7.00"] 0 1 (-1) = Except.ok 700 ∧
    amount_from_row ["3.00"] 5 0 (-1) = Except.ok (-300) ∧
    amount_from_row ["4.00"] 5 (-1) 0 = Except.ok 400 ∧
    amount_from_row ["7.00"] 5 3 (-1) =
      Except.error "Missing amount (no debit/credit)" :=
  ⟨((amount_column_precedence ["7.00"] 0 1 (-1) (by decide)).1
      (by decide)).trans (by decide),
   ((amount_column_precedence ["3.00"] 5 0 (-1) (by decide)).2.1
      (by decide) (by decide)).trans (by decide),
   ((amount_column_precedence ["4.00"] 5 (-1) 0 (by decide)).2.2.1
      (by decide) (by decide) (by decide)).trans (by decide),
   (amount_column_precedence ["7.00"] 5 3 (-1) (by decide)).2.2.2
      (by decide) (by decide) (by decide)⟩

/-- C9: every `.` is replaced by `/` before the format list is attempted,
so whenever the format list decides the result, a token and its
slash-for-period counterpart normalize identically; in particular
`"2024.03.04"` and `"03.04.2024"` parse exactly like `"2024/03/04"` and
`"03/04/2024"`. -/
theorem dots_normalize_like_slashes :
    (∀ (s : String) (y m d : Nat),
      tryFormats (preprocessDate s) = some (y, m, d) →
      parse_date s = Except.ok (formatYMD y m d) ∧
      parse_date (String.mk (dotsToSlashes s.toList)) =
        Except.ok (formatYMD y m d)) ∧
    parse_date "2024.03.04" = parse_date "2024/03/04" ∧
    parse_date "03.04.2024" = parse_date "03/04/2024" ∧
    parse_date "2024.03.04" = Except.ok "2024-03-04" := by
  refine ⟨?_, by decide, by decide, by decide⟩
  intro s y m d h
  refine ⟨parse_date_of_tryFormats h, ?_⟩
  have h' : tryFormats (preprocessDate (String.mk (dotsToSlashes s.toList))) =
      some (y, m, d) := by
    rw [preprocessDate_dts]
    exact h
  exact parse_date_of_tryFormats h'

/-- C9 witness: the general implication applied at `"2024.03.04"`. -/
theorem dots_normalize_like_slashes_witness :
    parse_date "2024.03.04" = Except.ok "2024-03-04" ∧
    parse_date (String.mk (dotsToSlashes "2024.03.04".toList)) =
      Except.ok "2024-03-04" := by
  have h := dots_normalize_like_slashes.1 "2024.03.04" 2024 3 4 (by decide)
  exact ⟨h.1.trans (by decide), h.2.trans (by decide)⟩

/-- C10: debit/credit marker detection is exactly the eight case-insensitive
substring tests of the source; `"45.00DR"` (no space around `DR`) matches
none of them and parses as +4500, while `"45.00 DR"` parses as -4500. -/
theorem marker_detection :
    (∀ l : Chars, debitMarker l =
      (subL " dr".toList l || subL "dr ".toList l || subL "debit".toList l ||
       subL "withdrawal".toList l)) ∧
    (∀ l : Chars, creditMarker l =
      (subL " cr".toList l || subL "cr ".toList l || subL "credit".toList l ||
       subL "deposit".toList l)) ∧
    debitMarker (List.map lowerC "45.00DR".toList) = false ∧
    creditMarker (List.map lowerC "45.00DR".toList) = false ∧
    parse_amount_to_cents "45.00DR" = Except.ok 4500 ∧
    parse_amount_to_cents "45.00 DR" = Except.ok (-4500) :=
  ⟨fun _ => rfl, fun _ => rfl, by decide, by decide, by decide, by decide⟩

/-- C1: if every data row of the file normalizes successfully and none of
their records is in the ledger, a second commit scan right after a first
one accepts nothing and reports every row as a duplicate: no row is ever
imported twice. -/
theorem commit_twice_idempotent (cfg : ImportCfg) (rows : List (List String))
    (lg0 : List Rec)
    (hparse : ∀ row ∈ rows, ∃ r, parse_row cfg row = Except.ok r)
    (habsent : ∀ row ∈ rows, ∀ r, parse_row cfg row = Except.ok r → r ∉ lg0) :
    (scan_full_file dbInsert false cfg rows
      (scan_full_file dbInsert false cfg rows lg0).ledger).imported = 0 ∧
    (scan_full_file dbInsert false cfg rows
      (scan_full_file dbInsert false cfg rows lg0).ledger).skipped =
        rows.length ∧
    (scan_full_file dbInsert false cfg rows
      (scan_full_file dbInsert false cfg rows lg0).ledger).failed = 0 := by
  simp only [scan_full_file]
  have hall : ∀ row ∈ rows, ∃ r, parse_row cfg row = Except.ok r ∧
      r ∈ (⟨(List.foldl (scan_row dbInsert false cfg)
            ⟨lg0, 0, 0, 0, [], []⟩ rows).ledger, 0, 0, 0, [], []⟩ :
          ScanState).ledger := by
    intro row hr
    obtain ⟨r, hp⟩ := hparse row hr
    exact ⟨r, hp, foldl_scan_commits cfg rows _ row r hr hp⟩
  obtain ⟨h1, h2, h3, _⟩ := foldl_scan_all_dup dbInsert false cfg rows _ hall
  exact ⟨h1, by rw [h2]; simp, h3⟩

/-- C1 witness: a one-row file against an empty ledger. -/
theorem commit_twice_idempotent_witness :
    (scan_full_file dbInsert false cfgEx [rowEx]
      (scan_full_file dbInsert false cfgEx [rowEx] []).ledger).imported = 0 ∧
    (scan_full_file dbInsert false cfgEx [rowEx]
      (scan_full_file dbInsert false cfgEx [rowEx] []).ledger).skipped = 1 ∧
    (scan_full_file dbInsert false cfgEx [rowEx]
      (scan_full_file dbInsert false cfgEx [rowEx] []).ledger).failed = 0 :=
  commit_twice_idempotent cfgEx [rowEx] []
    (by
      intro row hr
      rw [List.mem_singleton] at hr
      subst hr
      exact ⟨⟨7, "2024-01-02", 500, "lunch"⟩, by decide⟩)
    (by
      intro row hr r hp
      exact List.not_mem_nil r)

/-- C2 counterexample: a file whose two rows normalize to the same record,
against an empty ledger.  Dry-run classifies both as Accepted (2/0/0) while
commit classifies the second as a Duplicate (1/1/0): the per-row outcome
sequences and the reported counts differ with no concurrent writer. -/
theorem dry_run_commit_mismatch :
    (scan_full_file dbInsert true cfgEx [rowEx, rowEx] []).outcomes ≠
      (scan_full_file dbInsert false cfgEx [rowEx, rowEx] []).outcomes ∧
    (scan_full_file dbInsert true cfgEx [rowEx, rowEx] []).imported = 2 ∧
    (scan_full_file dbInsert true cfgEx [rowEx, rowEx] []).skipped = 0 ∧
    (scan_full_file dbInsert false cfgEx [rowEx, rowEx] []).imported = 1 ∧
    (scan_full_file dbInsert false cfgEx [rowEx, rowEx] []).skipped = 1 := by
  decide

/-- C2 (amended): provided no two data rows of the file normalize to the
same record, a dry-run scan and a commit scan from the same unmodified
ledger produce identical per-row outcome sequences, and hence identical
`accepted_count`, `duplicate_count`, `failed_count` and error digests. -/
theorem dry_run_commit_agree (cfg : ImportCfg) (rows : List (List String))
    (lg : List Rec) (hnd : (parsedRecs cfg rows).Nodup) :
    (scan_full_file dbInsert true cfg rows lg).outcomes =
      (scan_full_file dbInsert false cfg rows lg).outcomes ∧
    (scan_full_file dbInsert true cfg rows lg).imported =
      (scan_full_file dbInsert false cfg rows lg).imported ∧
    (scan_full_file dbInsert true cfg rows lg).skipped =
      (scan_full_file dbInsert false cfg rows lg).skipped ∧
    (scan_full_file dbInsert true cfg rows lg).failed =
      (scan_full_file dbInsert false cfg rows lg).failed ∧
    (scan_full_file dbInsert true cfg rows lg).errors =
      (scan_full_file dbInsert false cfg rows lg).errors := by
  have h := dry_commit_gen cfg rows [] lg 0 0 0 [] [] hnd
    (fun row hr r hp => List.not_mem_nil r)
  rw [List.append_nil] at h
  simp only [scan_full_file]
  exact ⟨h.2.2.2.2, h.1, h.2.1, h.2.2.1, h.2.2.2.1⟩

/-- C2 witness: a two-row file with distinct records. -/
theorem dry_run_commit_agree_witness :
    (parsedRecs cfgEx [rowEx, rowEx2]).Nodup ∧
    (scan_full_file dbInsert true cfgEx [rowEx, rowEx2] []).outcomes =
      (scan_full_file dbInsert false cfgEx [rowEx, rowEx2] []).outcomes :=
  ⟨by decide, (dry_run_commit_agree cfgEx [rowEx, rowEx2] [] (by decide)).1⟩

/-- C3: a mapping violating the invariant (date or description unset, or
amount, debit and credit all unset) fails validation, and `import_csv`
then returns with the ledger unchanged, no report, and zero data-row
reads. -/
theorem invalid_mapping_blocks_scan (d_i s_i amt_i debit_i credit_i : Int)
    (account_id : Option Int) (confirm : Bool) (rows : List (List String))
    (lg : List Rec)
    (h : d_i = -1 ∨ s_i = -1 ∨ (amt_i = -1 ∧ debit_i = -1 ∧ credit_i = -1)) :
    (validate_mapping d_i s_i amt_i debit_i credit_i account_id).1 = false ∧
    import_csv d_i s_i amt_i debit_i credit_i account_id confirm rows lg =
      (lg, none, 0) := by
  have hv : (validate_mapping d_i s_i amt_i debit_i credit_i account_id).1 =
      false := by
    unfold validate_mapping
    rcases h with h | h | h
    · rw [if_pos (Or.inl h)]
    · rw [if_pos (Or.inr (Or.inl h))]
    · by_cases hc : d_i = -1 ∨ s_i = -1 ∨ account_id = none
      · rw [if_pos hc]
      · rw [if_neg hc, if_pos h]
  refine ⟨hv, ?_⟩
  have hfull : validate_mapping d_i s_i amt_i debit_i credit_i account_id =
      (false, (validate_mapping d_i s_i amt_i debit_i credit_i account_id).2) := by
    rw [← hv]
  unfold import_csv
  rw [hfull]

/-- C3 witness: the date role unset. -/
theorem invalid_mapping_blocks_scan_witness :
    (validate_mapping (-1) 1 2 (-1) (-1) (some 7)).1 = false ∧
    import_csv (-1) 1 2 (-1) (-1) (some 7) true [rowEx] [] =
      ([], none, 0) :=
  invalid_mapping_blocks_scan (-1) 1 2 (-1) (-1) (some 7) true [rowEx] []
    (Or.inl rfl)

/-- C4: under a valid mapping, and for any insert behaviour of the storage
collaborator (row-scoped storage errors included), the scan produces one
outcome per data row (a failure never aborts the remaining rows),
`failed_count` equals the number of Failed outcomes, and the error digest
is exactly the first five failure messages in row order. -/
theorem row_failures_isolated
    (ins : List Rec → Rec → Except String (List Rec)) (dry : Bool)
    (d_i s_i amt_i debit_i credit_i acct : Int)
    (rows : List (List String)) (lg : List Rec)
    (hvalid : (validate_mapping d_i s_i amt_i debit_i credit_i
      (some acct)).1 = true) :
    (scan_full_file ins dry ⟨d_i, s_i, amt_i, debit_i, credit_i, acct⟩
      rows lg).outcomes.length = rows.length ∧
    (scan_full_file ins dry ⟨d_i, s_i, amt_i, debit_i, credit_i, acct⟩
      rows lg).failed =
      (scan_full_file ins dry ⟨d_i, s_i, amt_i, debit_i, credit_i, acct⟩
        rows lg).outcomes.countP isFailedTag ∧
    (scan_full_file ins dry ⟨d_i, s_i, amt_i, debit_i, credit_i, acct⟩
      rows lg).errors =
      (failMsgs (scan_full_file ins dry ⟨d_i, s_i, amt_i, debit_i, credit_i,
        acct⟩ rows lg).outcomes).take 5 := by
  obtain ⟨e1, e2, e3⟩ := foldl_scan_trace ins dry
    ⟨d_i, s_i, amt_i, debit_i, credit_i, acct⟩ rows ⟨lg, 0, 0, 0, [], []⟩
    rfl rfl
  simp only [scan_full_file]
  exact ⟨by simpa using e3, e2, e1⟩

/-- C4 witness: a file whose first row has an unparsable date followed by a
valid row, under a valid mapping: one Failed and one Accepted outcome, one
retained error message. -/
theorem row_failures_isolated_witness :
    (validate_mapping 0 1 2 (-1) (-1) (some 7)).1 = true ∧
    ((scan_full_file dbInsert false ⟨0, 1, 2, -1, -1, 7⟩ [rowBad, rowEx]
        []).outcomes.length = 2 ∧
     (scan_full_file dbInsert false ⟨0, 1, 2, -1, -1, 7⟩ [rowBad, rowEx]
        []).failed =
       (scan_full_file dbInsert false ⟨0, 1, 2, -1, -1, 7⟩ [rowBad, rowEx]
          []).outcomes.countP isFailedTag ∧
     (scan_full_file dbInsert false ⟨0, 1, 2, -1, -1, 7⟩ [rowBad, rowEx]
        []).errors =
       (failMsgs (scan_full_file dbInsert false ⟨0, 1, 2, -1, -1, 7⟩
          [rowBad, rowEx] []).outcomes).take 5) :=
  ⟨by decide,
   row_failures_isolated dbInsert false 0 1 2 (-1) (-1) 7 [rowBad, rowEx] []
     (by decide)⟩

end FinTrack
